import Mathlib

/-!
Shallow embedding of the omni-state core (capitec/omni-state):
`ObservableProperty` (src/ObservableProperty.ts), `StatefulProperty`
(src/StatefulProperty.ts, first variant: the one over `SyncStorage | AsyncStorage`),
the `deepCopy` utility (src/utilities/deepCopy.ts), and the module-level
`_pendingPromises` registry together with the static `allSettled` getter.

JavaScript values are modelled as primitives plus references into an explicit
heap of objects (association lists of string-keyed fields); mutation through a
reference is heap mutation, which is what the copy-independence and draft-updater
claims are about.  `deepCopy` is modelled with a fuel parameter: for acyclic
object graphs a fuel of (number of heap objects + 1) is always sufficient, which
is the regime the library documents (`structuredClone` / JSON round-trip both
reject cyclic values, an accepted limitation per the spec).
-/

/-- JavaScript primitive values (immutable, copied by value). -/
inductive JSPrim where
  | undefined
  | null
  | bool (b : Bool)
  | num (n : Int)
  | str (s : String)
deriving DecidableEq, Repr

/-- A JavaScript value: a primitive, or a reference to a heap object. -/
inductive JSVal where
  | prim (p : JSPrim)
  | ref (a : Nat)
deriving DecidableEq, Repr

/-- A JavaScript object: an ordered list of string-keyed fields. -/
abbrev Obj := List (String × JSVal)

/-- The object heap: allocated objects with a fresh-address counter. -/
structure Heap where
  objs : List (Nat × Obj)
  next : Nat
deriving DecidableEq, Repr

/-- Lookup of the first entry for address `a` (addresses are unique in a
well-formed heap). -/
def assocFindN : List (Nat × Obj) → Nat → Option Obj
  | [], _ => none
  | (k, o) :: rest, a => if k = a then some o else assocFindN rest a

/-- Replace the object stored at address `a` (first entry). -/
def assocUpdateN : List (Nat × Obj) → Nat → Obj → List (Nat × Obj)
  | [], _, _ => []
  | (k, o) :: rest, a, o2 => if k = a then (a, o2) :: rest else (k, o) :: assocUpdateN rest a o2

def Heap.find (h : Heap) (a : Nat) : Option Obj :=
  assocFindN h.objs a

def Heap.updateObj (h : Heap) (a : Nat) (o : Obj) : Heap :=
  { h with objs := assocUpdateN h.objs a o }

/-- Allocate a fresh object, returning the updated heap and a reference to it. -/
def Heap.alloc (h : Heap) (o : Obj) : Heap × JSVal :=
  ({ objs := (h.next, o) :: h.objs, next := h.next + 1 }, .ref h.next)

/-- Read field `f` of an object (JS property read). -/
def fieldGet : Obj → String → Option JSVal
  | [], _ => none
  | (k, w) :: rest, f => if k = f then some w else fieldGet rest f

/-- JS property assignment `o.f = v`: overwrite in place, or append if absent. -/
def fieldSet : Obj → String → JSVal → Obj
  | [], f, v => [(f, v)]
  | (k, w) :: rest, f, v => if k = f then (f, v) :: rest else (k, w) :: fieldSet rest f v

/-- Mutate field `f` of the object at address `a` (JS `obj.f = v` through a
reference; a no-op on a dangling address, which never arises). -/
def heapSetField (h : Heap) (a : Nat) (f : String) (v : JSVal) : Heap :=
  match h.find a with
  | some o => h.updateObj a (fieldSet o f v)
  | none => h

/-- Read field `f` through a value (none when the value is not a reference). -/
def readField (h : Heap) (v : JSVal) (f : String) : Option JSVal :=
  match v with
  | .ref a => (h.find a).bind (fun o => fieldGet o f)
  | .prim _ => none

/-- src/utilities/isDefined.ts: `value !== null && value !== undefined`. -/
def isDefined (v : JSVal) : Bool :=
  match v with
  | .prim .null => false
  | .prim .undefined => false
  | _ => true

/-- One copy step over an object's field list, threading the heap through a
given copier for the field values (the recursive occurrence of `deepCopy`). -/
def copyFieldsWith (copier : Heap → JSVal → Heap × JSVal) : Heap → Obj → Heap × Obj
  | h, [] => (h, [])
  | h, (k, v) :: rest =>
    let p := copier h v
    let q := copyFieldsWith copier p.1 rest
    (q.1, (k, p.2) :: q.2)

/-- src/utilities/deepCopy.ts: primitives are returned as-is
(`typeof object !== 'object' || object === null`); objects are cloned
structurally (`structuredClone`, with a JSON round-trip fallback), i.e. a fully
fresh object graph is allocated sharing nothing with the original.  The fuel
bounds the copy depth; for acyclic graphs any fuel of at least the number of
heap objects plus one is exact (a path in an acyclic graph cannot repeat an
address).  Defined via `Nat.rec` so the function reduces definitionally. -/
def deepCopyVal : Nat → Heap → JSVal → Heap × JSVal :=
  Nat.rec
    (fun h v =>
      match v with
      | .prim p => (h, .prim p)
      | .ref _ => (h, .prim .undefined))
    (fun _ ih h v =>
      match v with
      | .prim p => (h, .prim p)
      | .ref a =>
        match h.find a with
        | none => (h, .prim .undefined)
        | some flds =>
          let r := copyFieldsWith ih h flds
          r.1.alloc r.2)

/-- The call deepCopy(value) at the standard sufficient fuel for the given heap. -/
def deepCopy (h : Heap) (v : JSVal) : Heap × JSVal :=
  deepCopyVal (h.objs.length + 1) h v

/-!
ObservableProperty (src/ObservableProperty.ts).

The property state is the private `_value` together with the `_subscribers`
array; subscriber callbacks are identified by numeric ids and their behaviour
during a notification is given by an environment mapping each id to the side
effects its body performs (mutating the object it received, or calling
`unsubscribe` on the property — the effects the analysed claims exercise; the
callbacks run synchronously inside the notification loop).
-/

/-- A JS updater function passed to `set` ("draft" style): it receives the
current live value and may mutate the heap through it; its return value is
ignored by the source (`valueOrFunction(this._value)`). -/
abbrev Updater := Heap → JSVal → Heap

/-- The argument of `set`: either a direct value or an updater function.  The
source discriminates with `=== undefined` and `isFunction`; a function is never
`undefined`, so the two constructors cover the same case split. -/
inductive SetArg where
  | value (v : JSVal)
  | updater (u : Updater)

/-- What a subscriber callback receives: a value, or — when `set` was called
with an updater function — the updater function object itself, since
`deepCopy` returns non-objects (including functions, `typeof 'function'`)
unchanged. -/
inductive Delivered where
  | val (v : JSVal)
  | func
deriving DecidableEq, Repr

/-- A side effect a subscriber callback performs when invoked. -/
inductive HAct where
  | unsub (target : Nat)
  | setRecvField (f : String) (v : JSVal)
deriving Repr

/-- The behaviour of each subscriber callback: the effects its body performs. -/
abbrev HandlerEnv := Nat → List HAct

/-- An environment of subscriber callbacks with empty bodies. -/
def trivEnv : HandlerEnv := fun _ => []

/-- The state of an `ObservableProperty`: the ambient heap, `_value`
(initially `undefined`: the field is declared `_value!: T` and never
initialised by the constructor), and `_subscribers`. -/
structure World where
  heap : Heap
  value : JSVal
  subs : List Nat
deriving DecidableEq, Repr

namespace ObservableProperty

/-- Source `exists()`: `isDefined(this._value)`. -/
def existsP (w : World) : Bool :=
  isDefined w.value

/-- Source `get()`: `return this._value;` — the live internal value, not a copy. -/
def get (w : World) : JSVal :=
  w.value

/-- Source `subscribe(handler)`: `this._subscribers.push(handler)`. -/
def subscribe (w : World) (hid : Nat) : World :=
  { w with subs := w.subs ++ [hid] }

/-- Source `unsubscribe(handler)`: `this._subscribers = this._subscribers.filter(s => s !== handler)`
— the field is replaced with a new filtered array; the previous array object is
left untouched (an iterator over it is unaffected). -/
def unsubscribe (w : World) (hid : Nat) : World :=
  { w with subs := w.subs.filter (fun s => s ≠ hid) }

/-- One iteration's `deepCopy(valueOrFunction)` in the notification loop: a
direct value is deep-copied in the current heap; an updater function is
returned unchanged by `deepCopy` (not an object), so the callback receives the
function itself. -/
def deliverOne (arg : SetArg) (w : World) : World × Delivered :=
  match arg with
  | .value v =>
    let r := deepCopy w.heap v
    ({ w with heap := r.1 }, .val r.2)
  | .updater _ => (w, .func)

/-- Run one effect of a subscriber body: `unsubscribe` replaces the
`_subscribers` field; mutating the received argument writes a field of the
object the callback was handed (a no-op when it received a primitive or the
updater function). -/
def applyAct (d : Delivered) (w : World) : HAct → World
  | .unsub t => unsubscribe w t
  | .setRecvField f v =>
    match d with
    | .val (.ref a) => { w with heap := heapSetField w.heap a f v }
    | _ => w

def applyActs (acts : List HAct) (d : Delivered) (w : World) : World :=
  acts.foldl (fun w1 a => applyAct d w1 a) w

/-- The notification loop `for (const subscriber of this._subscribers) { subscriber(deepCopy(valueOrFunction)); }`.
The `for..of` iterator holds the array object that `_subscribers` referenced
when the loop began; `unsubscribe` only replaces the field with a new array, so
the loop runs over that captured list (`snapshot`) while callback effects act
on the evolving state.  Returns the final state and the invocation events
(callback id, argument delivered), in order. -/
def notifyLoop (env : HandlerEnv) (arg : SetArg) : List Nat → World → World × List (Nat × Delivered)
  | [], w => (w, [])
  | s :: rest, w =>
    let p := deliverOne arg w
    let w2 := applyActs (env s) p.2 p.1
    let q := notifyLoop env arg rest w2
    (q.1, (s, p.2) :: q.2)

/-- Source `set(valueOrFunction)` (src/ObservableProperty.ts lines 85–114):
if the argument is `undefined` the value is unset; if it is a function it is
invoked with the current live `_value` and then `_value = deepCopy(this._value)`;
otherwise `_value = deepCopy(valueOrFunction)`.  Afterwards every subscriber in
the array captured by the loop is invoked with `deepCopy(valueOrFunction)`. -/
def set (env : HandlerEnv) (w : World) (arg : SetArg) : World × List (Nat × Delivered) :=
  match arg with
  | .value (.prim .undefined) =>
    let w1 : World := { w with value := .prim .undefined }
    notifyLoop env arg w1.subs w1
  | .updater u =>
    let h1 := u w.heap w.value
    let r := deepCopy h1 w.value
    let w1 : World := { heap := r.1, value := r.2, subs := w.subs }
    notifyLoop env arg w1.subs w1
  | .value v =>
    let r := deepCopy w.heap v
    let w1 : World := { heap := r.1, value := r.2, subs := w.subs }
    notifyLoop env arg w1.subs w1

end ObservableProperty

/-- The JS updater `draft => { draft.f = x; }`: assign a field through the
received live reference (no effect when the draft is not an object). -/
def updaterAssign (f : String) (x : JSVal) : Updater :=
  fun h v =>
    match v with
    | .ref a => heapSetField h a f x
    | .prim _ => h

/-!
StatefulProperty (src/StatefulProperty.ts, first variant) and the module-level
`_pendingPromises` registry.

A synchronous storage backend is a triple of operations over an in-memory
key-value store; each operation may throw (modelled with `Except`), since the
source calls them bare (`void this._storage.set(...)` evaluates the call and
discards the result — it does not catch exceptions).  The calls the property
issues are also recorded as a trace of storage operations.
-/

/-- A thrown JS error (its message). -/
abbrev JSErr := String

/-- The contents of a key-value store. -/
abbrev Store := List (String × JSVal)

def storeFind : Store → String → Option JSVal
  | [], _ => none
  | (k, v) :: rest, key => if k = key then some v else storeFind rest key

def storeInsert : Store → String → JSVal → Store
  | [], key, v => [(key, v)]
  | (k, w) :: rest, key, v => if k = key then (key, v) :: rest else (k, w) :: storeInsert rest key v

def storeErase : Store → String → Store
  | [], _ => []
  | (k, w) :: rest, key => if k = key then storeErase rest key else (k, w) :: storeErase rest key

/-- A synchronous storage handle (the `SyncStorage` contract): `get`, `set`
and `remove`, each able to throw. -/
structure SyncBackend where
  bget : Store → String → Except JSErr JSVal
  bset : Store → String → JSVal → Except JSErr Store
  bremove : Store → String → Except JSErr Store

/-- An in-memory synchronous storage stub that never throws: `get` returns the
stored value or `undefined`, `set` inserts, `remove` erases. -/
def stubBackend : SyncBackend where
  bget s k := .ok ((storeFind s k).getD (.prim .undefined))
  bset s k v := .ok (storeInsert s k v)
  bremove s k := .ok (storeErase s k)

/-- A synchronous storage handle whose every operation throws (e.g. a quota
violation). -/
def quotaBackend : SyncBackend where
  bget _ _ := .error "QuotaExceededError"
  bset _ _ _ := .error "QuotaExceededError"
  bremove _ _ := .error "QuotaExceededError"

/-- A storage operation issued by the property. -/
inductive StoreOp where
  | opGet (k : String)
  | opSet (k : String) (v : JSVal)
  | opRemove (k : String)
deriving DecidableEq, Repr

/-- Errors a `StatefulProperty` construction can raise: the eager parameter
validation (`throw new Error(...)`), or an exception propagating out of the
synchronous storage read in `_initFromStorage`. -/
inductive CtorErr where
  | config (msg : String)
  | storageErr (e : JSErr)
deriving DecidableEq, Repr

/-- The outcome of a `StatefulProperty` construction. -/
inductive CtorOut where
  | ok (w : World) (s : Store)
  | err (e : CtorErr)
deriving DecidableEq, Repr

/-- Whether a construction outcome is a configuration error (the eager
validation `throw`), as opposed to success or a propagated storage error. -/
def isConfigErr : CtorOut → Bool
  | .err (.config _) => true
  | _ => false

/-- The template-literal interpolation of the `key` parameter into the
validation messages: an omitted key prints as `undefined`. -/
def keyName : Option String → String
  | none => "undefined"
  | some k => k

/-- Validation message for a missing storage handle (it names the key). -/
def storageErrMsg (k : String) : String :=
  "StatefulProperty - " ++ k ++ " requires a storage mechanism to be specified, e.g. LocalStorage, SessionStorage, or a similar interface."

/-- Validation message for a missing key (it names the key). -/
def keyErrMsg (k : String) : String :=
  "StatefulProperty - " ++ k ++ " requires a key to be specified, e.g. my-property-name."

namespace StatefulProperty

/-- The result of `StatefulProperty.set`: the property state, the notification
events of the underlying `ObservableProperty.set`, the storage contents, an
exception that escaped `set` (if any), and the trace of storage operations the
call issued. -/
structure SetOut where
  world : World
  events : List (Nat × Delivered)
  store : Store
  err : Option JSErr
  ops : List StoreOp
deriving DecidableEq, Repr

/-- Source `set(valueOrFunction)` override (src/StatefulProperty.ts lines 110–124):
`super.set(valueOrFunction)`, then `const newValue = super.get()`, then
`remove(key)` when `newValue === undefined || newValue === null`, otherwise
`set(key, newValue)`.  The storage call is issued bare (`void ...`), so an
exception it throws escapes `set` after the in-memory update and the
subscriber notifications have completed. -/
def set (B : SyncBackend) (key : String) (env : HandlerEnv) (w : World) (s : Store) (arg : SetArg) : SetOut :=
  let r := ObservableProperty.set env w arg
  let newValue := ObservableProperty.get r.1
  if isDefined newValue = false then
    match B.bremove s key with
    | .ok s1 => ⟨r.1, r.2, s1, none, [.opRemove key]⟩
    | .error e => ⟨r.1, r.2, s, some e, [.opRemove key]⟩
  else
    match B.bset s key newValue with
    | .ok s1 => ⟨r.1, r.2, s1, none, [.opSet key newValue]⟩
    | .error e => ⟨r.1, r.2, s, some e, [.opSet key newValue]⟩

/-- The constructor (src/StatefulProperty.ts lines 41–60) over a synchronous
storage handle, together with `_initFromStorage` (lines 133–160, synchronous
branch): validate `storage` then `key` (an omitted or empty key is falsy),
then read `storage.get(key)` once; a defined result becomes the initial value
via `super.set` (the `ObservableProperty` one — no write-through); an
exception from the read propagates out of the constructor.  Also returns the
trace of storage operations issued. -/
def mk (storage : Option SyncBackend) (key : Option String) (h : Heap) (s : Store) : CtorOut × List StoreOp :=
  match storage with
  | none => (.err (.config (storageErrMsg (keyName key))), [])
  | some B =>
    match key with
    | none => (.err (.config (keyErrMsg (keyName none))), [])
    | some k =>
      if k = "" then (.err (.config (keyErrMsg k)), [])
      else
        match B.bget s k with
        | .error e => (.err (.storageErr e), [.opGet k])
        | .ok v =>
          if isDefined v then
            let r := ObservableProperty.set trivEnv ⟨h, .prim .undefined, []⟩ (.value v)
            (.ok r.1 s, [.opGet k])
          else
            (.ok ⟨h, .prim .undefined, []⟩ s, [.opGet k])

end StatefulProperty

/-!
The pending-operations registry (`_pendingPromises`, a module-level
`Map<string, Promise<unknown>>`) and the asynchronous restore path.

For the restore continuation, the registry content relevant to the claims is
its key set in insertion order; a settled read is modelled by its outcome.
-/

/-- The keys of `_pendingPromises`, in `Map` insertion order. -/
abbrev Registry := List String

/-- Semantics of `Map.prototype.set`: an existing key keeps its position, a new key is
appended. -/
def registrySet (r : Registry) (k : String) : Registry :=
  if k ∈ r then r else r ++ [k]

/-- Semantics of `Map.prototype.delete`. -/
def registryDelete (r : Registry) (k : String) : Registry :=
  r.filter (fun k1 => k1 ≠ k)

/-- The registration performed by `_initFromStorage` when the storage read is
a promise: `_pendingPromises.set(this._key, ...)`. -/
def asyncRegister (r : Registry) (key : String) : Registry :=
  registrySet r key

/-- A settled promise: fulfilled with a value, or rejected with an error. -/
inductive Outcome where
  | fulfilled (v : JSVal)
  | rejected (e : JSErr)
deriving DecidableEq, Repr

/-- The state after an asynchronous restore settles, plus the outcome of the
chained promise that `_initFromStorage` stored in the registry. -/
structure SettleOut where
  world : World
  registry : Registry
  chained : Outcome
deriving Repr

/-- The semantics of `p.then(f)` with only a fulfilment handler: when `p`
fulfils with `v`, `f v` runs and its return value fulfils the chained promise;
when `p` rejects, `f` is skipped and the chained promise rejects with the same
reason. -/
def thenFulfilled (f : JSVal → World × Registry → (World × Registry) × JSVal)
    (out : Outcome) (w : World) (r : Registry) : SettleOut :=
  match out with
  | .fulfilled v =>
    let q := f v (w, r)
    ⟨q.1.1, q.1.2, .fulfilled q.2⟩
  | .rejected e => ⟨w, r, .rejected e⟩

/-- The fulfilment continuation `_initFromStorage` attaches
(src/StatefulProperty.ts lines 143–152): `super.set(value)`, then
`_pendingPromises.delete(this._key)`, then `return value`. -/
def restoreCont (env : HandlerEnv) (key : String) : JSVal → World × Registry → (World × Registry) × JSVal :=
  fun v wr =>
    let r1 := ObservableProperty.set env wr.1 (.value v)
    ((r1.1, registryDelete wr.2 key), v)

/-- What happens when the asynchronous restore read for `key` settles with
`out`: the source wired `Promise.resolve(storageValue).then(value => {...})`,
with no rejection handler. -/
def settleRestore (env : HandlerEnv) (key : String) (out : Outcome) (w : World) (r : Registry) : SettleOut :=
  thenFulfilled (restoreCont env key) out w r

/-- The `.value` field of a `Promise.allSettled` outcome object: present on a
fulfilled entry, absent (`undefined`) on a rejected one. -/
def outcomeValue : Outcome → JSVal
  | .fulfilled v => v
  | .rejected _ => .prim .undefined

/-- Semantics of `Object.keys` applied to a `Map` instance: the own enumerable string-keyed
properties of the Map object itself.  A `Map` stores its entries in internal
slots, not as properties, so the result is the empty list for every Map,
whatever it contains. -/
def jsObjectKeysOfMap (_pend : List (String × Outcome)) : List String :=
  []

/-- A JS `Map` under repeated `result.set(k, v)`: overwrite in place or
append.  The key is `Option String` because `keys[i]` past the end of the
`keys` array is `undefined` (`none`). -/
def jsMapSet : List (Option String × JSVal) → Option String → JSVal → List (Option String × JSVal)
  | [], k, v => [(k, v)]
  | (k1, v1) :: rest, k, v => if k1 = k then (k1, v) :: rest else (k1, v1) :: jsMapSet rest k v

/-- The result-building loop of `allSettled`:
`for (let i = 0; i < outcome.length; i++) result.set(keys[i], outcome[i].value)`. -/
def allSettledBuild (keys : List String) : Nat → List Outcome → List (Option String × JSVal) → List (Option String × JSVal)
  | _, [], m => m
  | i, o :: rest, m => allSettledBuild keys (i + 1) rest (jsMapSet m keys[i]? (outcomeValue o))

/-- The static `allSettled` getter (src/StatefulProperty.ts lines 71–93) as a
function of the snapshotted registry with the eventual outcome of each entry's
promise: `keys = Object.keys(_pendingPromises)` (on the `Map`!), then
`Promise.allSettled(_pendingPromises.values())`, then the result map is built
pairing `keys[i]` with `outcome[i].value`, and the promise resolves with it
once every snapshotted promise has settled (it never rejects: `reject` is
never invoked and the executor cannot throw). -/
def allSettledResult (pend : List (String × Outcome)) : List (Option String × JSVal) :=
  allSettledBuild (jsObjectKeysOfMap pend) 0 (pend.map (fun kv => kv.2)) []

/-!
Helper lemmas about the heap, the copier and the notification loop.
-/

theorem deepCopyVal_prim (fuel : Nat) (h : Heap) (p : JSPrim) :
    deepCopyVal fuel h (.prim p) = (h, .prim p) := by
  cases fuel <;> rfl

theorem deepCopyVal_succ (fuel : Nat) (h : Heap) (a : Nat) :
    deepCopyVal (fuel + 1) h (.ref a) =
      match h.find a with
      | none => (h, .prim .undefined)
      | some flds =>
        let r := copyFieldsWith (deepCopyVal fuel) h flds
        r.1.alloc r.2 := rfl

theorem fieldGet_fieldSet_self (o : Obj) (f : String) (v : JSVal) :
    fieldGet (fieldSet o f v) f = some v := by
  induction o with
  | nil => simp [fieldSet, fieldGet]
  | cons kv rest ih =>
    by_cases hk : kv.1 = f
    · simp [fieldSet, fieldGet, hk]
    · simp [fieldSet, fieldGet, hk, ih]

theorem assocFindN_assocUpdateN_self (l : List (Nat × Obj)) (a : Nat) (o o2 : Obj)
    (hfind : assocFindN l a = some o) :
    assocFindN (assocUpdateN l a o2) a = some o2 := by
  induction l with
  | nil => simp [assocFindN] at hfind
  | cons kv rest ih =>
    by_cases hk : kv.1 = a
    · simp [assocFindN, assocUpdateN, hk]
    · simp [assocFindN, assocUpdateN, hk] at hfind ⊢
      exact ih hfind

theorem Heap.find_heapSetField_self (h : Heap) (a : Nat) (f : String) (v : JSVal) (o : Obj)
    (ho : h.find a = some o) :
    (heapSetField h a f v).find a = some (fieldSet o f v) := by
  unfold heapSetField
  rw [ho]
  exact assocFindN_assocUpdateN_self h.objs a o (fieldSet o f v) ho

theorem Heap.find_alloc_self (h : Heap) (o : Obj) :
    ((h.alloc o).1).find h.next = some o := by
  simp [Heap.alloc, Heap.find, assocFindN]

theorem copyFieldsWith_fieldGet_prim (copier : Heap → JSVal → Heap × JSVal)
    (hc : ∀ (h : Heap) (p : JSPrim), copier h (.prim p) = (h, .prim p)) :
    ∀ (o : Obj) (h : Heap) (f : String) (p : JSPrim),
      fieldGet o f = some (.prim p) →
      fieldGet (copyFieldsWith copier h o).2 f = some (.prim p) := by
  intro o
  induction o with
  | nil => intro h f p hget; simp [fieldGet] at hget
  | cons kv rest ih =>
    intro h f p hget
    obtain ⟨k, v⟩ := kv
    by_cases hk : k = f
    · simp [fieldGet, hk] at hget
      subst hget
      simp [copyFieldsWith, fieldGet, hk, hc]
    · simp [fieldGet, hk] at hget
      simp [copyFieldsWith, fieldGet, hk]
      exact ih (copier h v).1 f p hget

theorem notifyLoop_map_fst (env : HandlerEnv) (arg : SetArg) :
    ∀ (l : List Nat) (w : World),
      ((ObservableProperty.notifyLoop env arg l w).2).map Prod.fst = l := by
  intro l
  induction l with
  | nil => intro w; rfl
  | cons s rest ih =>
    intro w
    simp [ObservableProperty.notifyLoop, ih]

theorem notifyLoop_trivEnv_updater (u : Updater) :
    ∀ (l : List Nat) (w : World),
      ObservableProperty.notifyLoop trivEnv (.updater u) l w =
        (w, l.map (fun s => (s, Delivered.func))) := by
  intro l
  induction l with
  | nil => intro w; rfl
  | cons s rest ih =>
    intro w
    simp [ObservableProperty.notifyLoop, ObservableProperty.deliverOne,
      ObservableProperty.applyActs, trivEnv, ih]

theorem storeFind_storeInsert_self (s : Store) (k : String) (v : JSVal) :
    storeFind (storeInsert s k v) k = some v := by
  induction s with
  | nil => simp [storeInsert, storeFind]
  | cons kv rest ih =>
    by_cases hk : kv.1 = k
    · simp [storeInsert, storeFind, hk]
    · simp [storeInsert, storeFind, hk, ih]

theorem storeFind_storeErase_self (s : Store) (k : String) :
    storeFind (storeErase s k) k = none := by
  induction s with
  | nil => simp [storeErase, storeFind]
  | cons kv rest ih =>
    by_cases hk : kv.1 = k
    · simp [storeErase, storeFind, hk, ih]
    · simp [storeErase, storeFind, hk, ih]

/-!
Claim theorems.
-/

/-- C1 (counterexample): the claim "get() returns a fresh normalized deep copy
... mutating the object returned by one get() call does not change what a
following get() call returns" is false on the code.  Concretely: after
`set({a: 1})` the property's `get()` returns the live internal reference
(address 1, the copy `set` stored); assigning `a = 2` through that returned
reference makes the following `get()` read `{a: 2}` where it previously read
`{a: 1}`. -/
theorem C1_counterexample :
    ObservableProperty.get
        ((ObservableProperty.set trivEnv ⟨⟨[(0, [("a", .prim (.num 1))])], 1⟩, .prim .undefined, []⟩
          (.value (.ref 0))).1) = .ref 1 ∧
    readField
        ((ObservableProperty.set trivEnv ⟨⟨[(0, [("a", .prim (.num 1))])], 1⟩, .prim .undefined, []⟩
          (.value (.ref 0))).1).heap (.ref 1) "a" = some (.prim (.num 1)) ∧
    readField
        (heapSetField
          ((ObservableProperty.set trivEnv ⟨⟨[(0, [("a", .prim (.num 1))])], 1⟩, .prim .undefined, []⟩
            (.value (.ref 0))).1).heap 1 "a" (.prim (.num 2)))
        (ObservableProperty.get
          ((ObservableProperty.set trivEnv ⟨⟨[(0, [("a", .prim (.num 1))])], 1⟩, .prim .undefined, []⟩
            (.value (.ref 0))).1)) "a" = some (.prim (.num 2)) := by
  decide

/-- C1 (amended): `get()` returns the live internal value itself, not a copy
(`return this._value`); consequently, whenever the current value is an object,
a field assignment performed through the reference `get()` returned is visible
to a following `get()` — the returned reference is the internal state.  (Copy
protection exists only on the way in: `set` stores a deep copy of its
argument.) -/
theorem C1_amended_live_get (w : World) (a : Nat) (o : Obj) (f : String) (x : JSVal)
    (hv : w.value = .ref a) (ho : w.heap.find a = some o) :
    ObservableProperty.get w = .ref a ∧
    readField (heapSetField w.heap a f x) (ObservableProperty.get w) f = some x := by
  constructor
  · simpa [ObservableProperty.get] using hv
  · simp only [ObservableProperty.get, hv, readField]
    rw [Heap.find_heapSetField_self w.heap a f x o ho]
    simp [fieldGet_fieldSet_self]

/-- C1 (witness for the amended theorem): evaluated on the one-object heap
holding `{a: 1}` at address 0. -/
theorem C1_amended_live_get_witness :
    ObservableProperty.get ⟨⟨[(0, [("a", .prim (.num 1))])], 1⟩, .ref 0, []⟩ = .ref 0 ∧
    readField (heapSetField ⟨[(0, [("a", .prim (.num 1))])], 1⟩ 0 "a" (.prim (.num 2)))
      (ObservableProperty.get ⟨⟨[(0, [("a", .prim (.num 1))])], 1⟩, .ref 0, []⟩) "a" =
      some (.prim (.num 2)) :=
  C1_amended_live_get ⟨⟨[(0, [("a", .prim (.num 1))])], 1⟩, .ref 0, []⟩ 0
    [("a", .prim (.num 1))] "a" (.prim (.num 2)) rfl rfl

/-- C2 (code bug): `allSettled` snapshots `Object.keys(_pendingPromises)`, but
`_pendingPromises` is a `Map`, whose entries are not object properties — the
key list is always empty, so every `result.set(keys[i], ...)` uses key
`undefined`.  With one pending entry `"k"` whose read fulfils with `"z"`, the
resolved map is `{undefined ↦ "z"}` instead of `{"k" ↦ "z"}`; with two pending
entries only the last outcome survives under the single key `undefined`. -/
theorem C2_allSettled_keys_lost :
    allSettledResult [("k", .fulfilled (.prim (.str "z")))] = [(none, .prim (.str "z"))] ∧
    allSettledResult [("k1", .fulfilled (.prim (.str "z"))), ("k2", .fulfilled (.prim (.num 3)))] =
      [(none, .prim (.num 3))] ∧
    allSettledResult [("k", .rejected "boom")] = [(none, .prim .undefined)] := by
  decide

/-- C3 (counterexample): the claim "a rejected restore read still deregisters
the key from the registry" is false on the code.  The continuation is attached
with `.then(onFulfilled)` only, so when the read for key `"k"` rejects, the
`_pendingPromises.delete` inside the continuation never runs: the key
registered at construction is still in the registry after the read settled. -/
theorem C3_counterexample :
    (settleRestore trivEnv "k" (.rejected "read failed") ⟨⟨[], 0⟩, .prim .undefined, []⟩
        (asyncRegister [] "k")).registry = ["k"] := by
  decide

/-- C3 (amended): the registry entry is removed when the restore read
*fulfils* (the continuation applies the value and deletes the key); when the
read *rejects*, the fulfilment-only continuation is skipped — the key remains
registered, the property state is untouched, and the chained promise stored in
the registry rejects with the same reason. -/
theorem C3_amended_settle (env : HandlerEnv) (key : String) (w : World) (r : Registry)
    (v : JSVal) (e : JSErr) :
    key ∉ (settleRestore env key (.fulfilled v) w r).registry ∧
    (settleRestore env key (.rejected e) w r).registry = r ∧
    (settleRestore env key (.rejected e) w r).world = w ∧
    (settleRestore env key (.rejected e) w r).chained = .rejected e := by
  refine ⟨?_, rfl, rfl, rfl⟩
  simp [settleRestore, thenFulfilled, restoreCont, registryDelete]

/-- C4 (code bug): when `set` is called with an updater function, the
notification loop passes each subscriber `deepCopy(valueOrFunction)`, and
`deepCopy` returns a function unchanged (`typeof` is `'function'`, not
`'object'`) — so the subscriber receives the updater function itself, not a
copy of the resulting value.  Concretely: from `{a: 1}` with one subscriber,
`set(draft => { draft.a = 2 })` stores the new value `{a: 2}` (fresh copy at
address 1) but invokes the subscriber with the function. -/
theorem C4_updater_notifies_function :
    (ObservableProperty.set trivEnv ⟨⟨[(0, [("a", .prim (.num 1))])], 1⟩, .ref 0, [7]⟩
        (.updater (updaterAssign "a" (.prim (.num 2))))).2 = [(7, Delivered.func)] ∧
    ((ObservableProperty.set trivEnv ⟨⟨[(0, [("a", .prim (.num 1))])], 1⟩, .ref 0, [7]⟩
        (.updater (updaterAssign "a" (.prim (.num 2))))).1).value = .ref 1 ∧
    readField
        ((ObservableProperty.set trivEnv ⟨⟨[(0, [("a", .prim (.num 1))])], 1⟩, .ref 0, [7]⟩
          (.updater (updaterAssign "a" (.prim (.num 2))))).1).heap (.ref 1) "a" =
      some (.prim (.num 2)) := by
  decide

/-- C9 (counterexample): the claim "the failure does not propagate past the
property's public methods" is false on the code: `set` issues the storage call
bare (`void this._storage.set(...)`), so with a synchronous storage handle
whose `set` throws a quota error, the exception escapes
`StatefulProperty.set`. -/
theorem C9_counterexample :
    (StatefulProperty.set quotaBackend "k" trivEnv ⟨⟨[], 0⟩, .prim .undefined, []⟩ []
        (.value (.prim (.str "x")))).err = some "QuotaExceededError" := by
  decide

/-- C10 (confirmed): the set of handlers a `set()` call notifies is fixed when
the notification loop begins: the `for..of` loop iterates the array object
`_subscribers` referenced at loop start, while `unsubscribe` only *replaces*
the `_subscribers` field with a new filtered array — so for every state,
argument and collection of subscriber behaviours (including callbacks that
unsubscribe any handler mid-pass), the handlers invoked by the pass are
exactly the subscriber list as of the call, each invoked exactly once, in
order, and the pass completes without error. -/
theorem C10_notification_snapshot (env : HandlerEnv) (w : World) (arg : SetArg) :
    ((ObservableProperty.set env w arg).2).map Prod.fst = w.subs := by
  cases arg with
  | value v =>
    cases v with
    | prim p => cases p <;> simp [ObservableProperty.set, notifyLoop_map_fst]
    | ref a => simp [ObservableProperty.set, notifyLoop_map_fst]
  | updater u => simp [ObservableProperty.set, notifyLoop_map_fst]

/-- Reading a primitive-valued field through a freshly deep-copied reference
yields the same primitive: deep copy allocates the copy at a fresh address and
maps primitive fields to themselves. -/
theorem readField_deepCopy_prim (h : Heap) (a : Nat) (flds : Obj) (f : String) (p : JSPrim)
    (hfind : h.find a = some flds) (hget : fieldGet flds f = some (.prim p)) :
    readField (deepCopy h (.ref a)).1 (deepCopy h (.ref a)).2 f = some (.prim p) := by
  unfold deepCopy
  rw [deepCopyVal_succ, hfind]
  simp only [readField, Heap.alloc]
  have hfa :
      (Heap.find
        ⟨((copyFieldsWith (deepCopyVal h.objs.length) h flds).1.next,
            (copyFieldsWith (deepCopyVal h.objs.length) h flds).2) ::
            (copyFieldsWith (deepCopyVal h.objs.length) h flds).1.objs,
          (copyFieldsWith (deepCopyVal h.objs.length) h flds).1.next + 1⟩
        (copyFieldsWith (deepCopyVal h.objs.length) h flds).1.next) =
      some (copyFieldsWith (deepCopyVal h.objs.length) h flds).2 := by
    simp [Heap.find, assocFindN]
  rw [hfa]
  simp only [Option.some_bind]
  exact copyFieldsWith_fieldGet_prim (deepCopyVal h.objs.length)
    (fun h1 p1 => deepCopyVal_prim h.objs.length h1 p1) flds h f p hget

/-- C7 (confirmed): `set` with an updater function invokes the updater with
the current live `_value` (`valueOrFunction(this._value)` — no copy is made
first), and after the updater returns, the (possibly mutated) value is
normalized (`this._value = deepCopy(this._value)`) and stored.  Hence for any
property whose current value is an object holding field `a`, the draft
assignment `draft => { draft.a = 2 }` results in a following `get()` reading
`{a: 2}` — the in-place mutation of the live value is what the stored copy is
taken from. -/
theorem C7_updater_draft (w : World) (a : Nat) (o : Obj)
    (hv : w.value = .ref a) (ho : w.heap.find a = some o) :
    readField
        ((ObservableProperty.set trivEnv w (.updater (updaterAssign "a" (.prim (.num 2))))).1).heap
        (ObservableProperty.get
          ((ObservableProperty.set trivEnv w (.updater (updaterAssign "a" (.prim (.num 2))))).1))
        "a" =
      some (.prim (.num 2)) := by
  have hstep :
      (ObservableProperty.set trivEnv w (.updater (updaterAssign "a" (.prim (.num 2))))).1 =
        ⟨(deepCopy (updaterAssign "a" (.prim (.num 2)) w.heap w.value) w.value).1,
         (deepCopy (updaterAssign "a" (.prim (.num 2)) w.heap w.value) w.value).2,
         w.subs⟩ := by
    simp [ObservableProperty.set, notifyLoop_trivEnv_updater]
  rw [hstep]
  simp only [ObservableProperty.get]
  have hmut : updaterAssign "a" (.prim (.num 2)) w.heap w.value =
      heapSetField w.heap a "a" (.prim (.num 2)) := by
    rw [hv]; rfl
  rw [hmut, hv]
  exact readField_deepCopy_prim (heapSetField w.heap a "a" (.prim (.num 2))) a
    (fieldSet o "a" (.prim (.num 2))) "a" (.num 2)
    (Heap.find_heapSetField_self w.heap a "a" (.prim (.num 2)) o ho)
    (fieldGet_fieldSet_self o "a" (.prim (.num 2)))

/-- C7 (witness): evaluated from the concrete value `{a: 1}` at address 0. -/
theorem C7_updater_draft_witness :
    readField
        ((ObservableProperty.set trivEnv ⟨⟨[(0, [("a", .prim (.num 1))])], 1⟩, .ref 0, []⟩
          (.updater (updaterAssign "a" (.prim (.num 2))))).1).heap
        (ObservableProperty.get
          ((ObservableProperty.set trivEnv ⟨⟨[(0, [("a", .prim (.num 1))])], 1⟩, .ref 0, []⟩
            (.updater (updaterAssign "a" (.prim (.num 2))))).1))
        "a" =
      some (.prim (.num 2)) :=
  C7_updater_draft ⟨⟨[(0, [("a", .prim (.num 1))])], 1⟩, .ref 0, []⟩ 0
    [("a", .prim (.num 1))] rfl rfl

/-- C5 (confirmed): over a synchronous storage handle, every
`StatefulProperty.set` call issues exactly one storage operation under the
property's key before returning: `remove(key)` when the just-applied in-memory
value (`super.get()` after `super.set`) is `undefined` or `null`, otherwise
`set(key, value)` with that value; over the in-memory stub this leaves the
value stored under (resp. absent from) the key.  In particular, from an empty
stub, `set("x")` leaves `"x"` stored under `"k"`, and `set(null)` on a stub
holding `"k" ↦ "y"` leaves `"k"` absent. -/
theorem C5_write_through (env : HandlerEnv) (w : World) (s : Store) (key : String) (arg : SetArg) :
    ((StatefulProperty.set stubBackend key env w s arg).err = none ∧
      (StatefulProperty.set stubBackend key env w s arg).ops =
        [if isDefined (StatefulProperty.set stubBackend key env w s arg).world.value
          then .opSet key (StatefulProperty.set stubBackend key env w s arg).world.value
          else .opRemove key] ∧
      storeFind (StatefulProperty.set stubBackend key env w s arg).store key =
        (if isDefined (StatefulProperty.set stubBackend key env w s arg).world.value
          then some (StatefulProperty.set stubBackend key env w s arg).world.value
          else none)) ∧
    storeFind ((StatefulProperty.set stubBackend "k" trivEnv ⟨⟨[], 0⟩, .prim .undefined, []⟩ []
        (.value (.prim (.str "x")))).store) "k" = some (.prim (.str "x")) ∧
    storeFind ((StatefulProperty.set stubBackend "k" trivEnv ⟨⟨[], 0⟩, .prim (.str "y"), []⟩
        [("k", .prim (.str "y"))] (.value (.prim .null))).store) "k" = none := by
  refine ⟨?_, by decide, by decide⟩
  by_cases hD : isDefined (ObservableProperty.set env w arg).1.value <;>
    simp [StatefulProperty.set, ObservableProperty.get, stubBackend, hD,
      storeFind_storeInsert_self, storeFind_storeErase_self]

/-- C6 (confirmed): constructing a `StatefulProperty` over a synchronous
storage stub that already holds a defined (primitive) value under the key
reads storage exactly once (`opGet`), applies the stored value as the initial
in-memory value via the base `ObservableProperty.set` (so `get()` yields it
immediately after construction), and performs no storage `set` or `remove`:
the storage contents are returned unchanged. -/
theorem C6_sync_restore (h : Heap) (s : Store) (k : String) (p : JSPrim)
    (hk : k ≠ "") (hs : storeFind s k = some (.prim p)) (hp : isDefined (.prim p) = true) :
    StatefulProperty.mk (some stubBackend) (some k) h s = (.ok ⟨h, .prim p, []⟩ s, [.opGet k]) ∧
    ObservableProperty.get ⟨h, .prim p, []⟩ = .prim p := by
  refine ⟨?_, rfl⟩
  cases p with
  | undefined => simp [isDefined] at hp
  | null => simp [isDefined] at hp
  | bool b =>
    simp [StatefulProperty.mk, hk, stubBackend, hs, isDefined, ObservableProperty.set,
      ObservableProperty.notifyLoop, deepCopy, deepCopyVal_prim]
  | num n =>
    simp [StatefulProperty.mk, hk, stubBackend, hs, isDefined, ObservableProperty.set,
      ObservableProperty.notifyLoop, deepCopy, deepCopyVal_prim]
  | str t =>
    simp [StatefulProperty.mk, hk, stubBackend, hs, isDefined, ObservableProperty.set,
      ObservableProperty.notifyLoop, deepCopy, deepCopyVal_prim]

/-- C6 (witness): evaluated on a stub pre-populated with `"k" ↦ "y"`. -/
theorem C6_sync_restore_witness :
    (StatefulProperty.mk (some stubBackend) (some "k") ⟨[], 0⟩ [("k", .prim (.str "y"))] =
      (.ok ⟨⟨[], 0⟩, .prim (.str "y"), []⟩ [("k", .prim (.str "y"))], [.opGet "k"])) ∧
    ObservableProperty.get ⟨⟨[], 0⟩, .prim (.str "y"), []⟩ = .prim (.str "y") :=
  C6_sync_restore ⟨[], 0⟩ [("k", .prim (.str "y"))] "k" (.str "y")
    (by decide) (by decide) (by decide)

/-- C8 (confirmed): construction validates its parameters eagerly, before any
storage read: a missing storage handle, and a missing or empty key, each raise
a configuration error synchronously with an empty storage-operation trace, and
the messages name the key (the interpolated `key` parameter, `undefined` when
omitted).  With a storage handle and a non-empty key, construction never
raises a configuration error (it either succeeds or propagates a storage
exception, which is not a configuration error). -/
theorem C8_ctor_validation (B : SyncBackend) (h : Heap) (s : Store) (key : Option String)
    (k : String) (hk : k ≠ "") :
    StatefulProperty.mk none key h s = (.err (.config (storageErrMsg (keyName key))), []) ∧
    storageErrMsg (keyName key) =
      "StatefulProperty - " ++ keyName key ++
        " requires a storage mechanism to be specified, e.g. LocalStorage, SessionStorage, or a similar interface." ∧
    StatefulProperty.mk (some B) none h s = (.err (.config (keyErrMsg (keyName none))), []) ∧
    keyErrMsg (keyName none) =
      "StatefulProperty - " ++ keyName none ++
        " requires a key to be specified, e.g. my-property-name." ∧
    StatefulProperty.mk (some B) (some "") h s = (.err (.config (keyErrMsg "")), []) ∧
    isConfigErr (StatefulProperty.mk (some B) (some k) h s).1 = false := by
  refine ⟨rfl, rfl, rfl, rfl, by simp [StatefulProperty.mk], ?_⟩
  simp only [StatefulProperty.mk, hk]
  cases hbg : B.bget s k with
  | error e => simp [hbg, isConfigErr]
  | ok v =>
    by_cases hD : isDefined v = true <;> simp [hbg, hD, isConfigErr]

/-- C8 (witness): evaluated at the stub backend and key `"k"`. -/
theorem C8_ctor_validation_witness :
    StatefulProperty.mk none (some "k") ⟨[], 0⟩ [] =
      (.err (.config (storageErrMsg (keyName (some "k")))), []) ∧
    storageErrMsg (keyName (some "k")) =
      "StatefulProperty - " ++ keyName (some "k") ++
        " requires a storage mechanism to be specified, e.g. LocalStorage, SessionStorage, or a similar interface." ∧
    StatefulProperty.mk (some stubBackend) none ⟨[], 0⟩ [] =
      (.err (.config (keyErrMsg (keyName none))), []) ∧
    keyErrMsg (keyName none) =
      "StatefulProperty - " ++ keyName none ++
        " requires a key to be specified, e.g. my-property-name." ∧
    StatefulProperty.mk (some stubBackend) (some "") ⟨[], 0⟩ [] =
      (.err (.config (keyErrMsg "")), []) ∧
    isConfigErr (StatefulProperty.mk (some stubBackend) (some "k") ⟨[], 0⟩ []).1 = false :=
  C8_ctor_validation stubBackend ⟨[], 0⟩ [] (some "k") "k" (by decide)

/-- C9 (amended): the property's public methods do not catch synchronous
storage exceptions — containment is delegated to the storage adapters.  With a
handle whose operations throw (e.g. a quota violation), `set` still applies
the in-memory value and delivers the subscriber notifications exactly as the
base `ObservableProperty.set` (those happen before the storage call), leaves
the storage contents unchanged, and then lets the exception escape; likewise
the constructor propagates an exception thrown by the synchronous storage
read. -/
theorem C9_amended_storage_error_propagates (env : HandlerEnv) (w : World) (s : Store)
    (arg : SetArg) (k : String) (h : Heap) (hk : k ≠ "") :
    (StatefulProperty.set quotaBackend k env w s arg).err = some "QuotaExceededError" ∧
    (StatefulProperty.set quotaBackend k env w s arg).world = (ObservableProperty.set env w arg).1 ∧
    (StatefulProperty.set quotaBackend k env w s arg).events = (ObservableProperty.set env w arg).2 ∧
    (StatefulProperty.set quotaBackend k env w s arg).store = s ∧
    StatefulProperty.mk (some quotaBackend) (some k) h s =
      (.err (.storageErr "QuotaExceededError"), [.opGet k]) := by
  refine ⟨?_, ?_, ?_, ?_, by simp [StatefulProperty.mk, hk, quotaBackend]⟩ <;>
    (by_cases hD : isDefined (ObservableProperty.set env w arg).1.value <;>
      simp [StatefulProperty.set, ObservableProperty.get, quotaBackend, hD])

/-- C9 (witness for the amended theorem): evaluated at the throwing backend
with key `"k"` and a concrete `set("x")`. -/
theorem C9_amended_storage_error_propagates_witness :
    (StatefulProperty.set quotaBackend "k" trivEnv ⟨⟨[], 0⟩, .prim .undefined, []⟩ []
        (.value (.prim (.str "x")))).err = some "QuotaExceededError" ∧
    (StatefulProperty.set quotaBackend "k" trivEnv ⟨⟨[], 0⟩, .prim .undefined, []⟩ []
        (.value (.prim (.str "x")))).world =
      (ObservableProperty.set trivEnv ⟨⟨[], 0⟩, .prim .undefined, []⟩ (.value (.prim (.str "x")))).1 ∧
    (StatefulProperty.set quotaBackend "k" trivEnv ⟨⟨[], 0⟩, .prim .undefined, []⟩ []
        (.value (.prim (.str "x")))).events =
      (ObservableProperty.set trivEnv ⟨⟨[], 0⟩, .prim .undefined, []⟩ (.value (.prim (.str "x")))).2 ∧
    (StatefulProperty.set quotaBackend "k" trivEnv ⟨⟨[], 0⟩, .prim .undefined, []⟩ []
        (.value (.prim (.str "x")))).store = [] ∧
    StatefulProperty.mk (some quotaBackend) (some "k") ⟨[], 0⟩ [] =
      (.err (.storageErr "QuotaExceededError"), [.opGet "k"]) :=
  C9_amended_storage_error_propagates trivEnv ⟨⟨[], 0⟩, .prim .undefined, []⟩ []
    (.value (.prim (.str "x"))) "k" ⟨[], 0⟩ (by decide)
